import Mathlib

/-!
Shallow embedding of the Vehicle-Lane-Detection repository
(`src/speed_monitor.py`, `src/enhanced_lane_detector.py`) and proofs about it.

Numeric values (Python ints/floats) are modelled as rationals; a Python value
fed to `add_speed_reading` may also be a Boolean or a non-numeric string, which
the code sorts out via `isinstance(speed, (int, float))`.  Python operations
that raise (reading `[-1]` of an empty list, dividing by `len(lines) == 0`)
are modelled with `Option`, the `none` meaning the call raises.
-/

namespace VehicleLane

/-- Value passed to `SpeedProcessor.add_speed_reading`: a number, a Boolean
(which Python's `isinstance(speed, (int, float))` accepts, `bool` being a
subclass of `int`), or a non-numeric text value. -/
inductive SpeedInput where
  | num (q : ℚ)
  | boolean (b : Bool)
  | str (s : String)
  deriving DecidableEq

/-- The numeric reading an input contributes, `none` when
`isinstance(speed, (int, float))` is false.  `True` counts as `1` and
`False` as `0`, exactly as Python arithmetic treats Booleans. -/
def asNumber : SpeedInput → Option ℚ
  | .num q => some q
  | .boolean b => some (if b then 1 else 0)
  | .str _ => none

/-- State of `SpeedProcessor` (`src/speed_monitor.py`): the configured
`speed_limit` and the rolling `speed_history` list. -/
structure SpeedProcessor where
  speed_limit : ℚ
  speed_history : List ℚ
  deriving DecidableEq

/-- The dictionary returned by `SpeedProcessor._analyze`.  `status` is the
Python string `"NORMAL"`, `"WARNING"` or `"DANGER"`. -/
structure SpeedAnalysis where
  current : ℚ
  average : ℚ
  status : String
  factor : ℚ
  deriving DecidableEq

/-- `SpeedProcessor._analyze`: `current = speed_history[-1]` (raising on an
empty history, hence the `Option`), `avg = np.mean(speed_history)`, the
status ladder `current > speed_limit * 1.3` / `current > speed_limit`, and
`factor = min(1.0, max(0.0, (current - speed_limit)/20))`. -/
def analyze (p : SpeedProcessor) : Option SpeedAnalysis :=
  p.speed_history.getLast?.map fun current =>
    { current := current
      average := p.speed_history.sum / (p.speed_history.length : ℚ)
      status :=
        if current > p.speed_limit * (13/10) then "DANGER"
        else if current > p.speed_limit then "WARNING"
        else "NORMAL"
      factor := min 1 (max 0 ((current - p.speed_limit) / 20)) }

/-- `SpeedProcessor.add_speed_reading`: substitute `speed_limit` for a
non-numeric input, append, `pop(0)` when the history exceeds 5 entries,
then return `_analyze()` together with the updated state. -/
def add_speed_reading (p : SpeedProcessor) (speed : SpeedInput) :
    SpeedProcessor × Option SpeedAnalysis :=
  let s := (asNumber speed).getD p.speed_limit
  let hist0 := p.speed_history ++ [s]
  let hist := if hist0.length > 5 then hist0.tail else hist0
  let p2 : SpeedProcessor := { speed_limit := p.speed_limit, speed_history := hist }
  (p2, analyze p2)

/-- Feed a list of readings one per call (as the per-frame driver does),
collecting each returned analysis. -/
def processAll : SpeedProcessor → List SpeedInput → List (Option SpeedAnalysis)
  | _, [] => []
  | p, i :: is =>
    (add_speed_reading p i).2 :: processAll (add_speed_reading p i).1 is

/-- Feed a list of readings one per call, keeping only the final state. -/
def runProcessor : SpeedProcessor → List SpeedInput → SpeedProcessor
  | p, [] => p
  | p, i :: is => runProcessor (add_speed_reading p i).1 is

/-- Python's `int()` conversion on a rational: truncation toward zero. -/
def pyInt (q : ℚ) : ℤ :=
  if q < 0 then ⌈q⌉ else ⌊q⌋

/-- The dictionary returned by `get_speed_settings`. -/
structure DetectionSettings where
  canny_min : ℤ
  canny_max : ℤ
  hough_thresh : ℤ
  roi_start : ℚ
  deriving DecidableEq

/-- `get_speed_settings` (`src/speed_monitor.py`): detection parameters as a
pure function of the speed factor. -/
def get_speed_settings (speed_factor : ℚ) : DetectionSettings :=
  { canny_min := 50 + pyInt (30 * speed_factor)
    canny_max := 150 + pyInt (50 * speed_factor)
    hough_thresh := max 20 (50 - pyInt (25 * speed_factor))
    roi_start := 1/2 - (15/100) * speed_factor }

/-- A detected line segment `{x1,y1,x2,y2}` in frame pixel coordinates
(the `line[0]` quadruple of a `cv2.HoughLinesP` row). -/
structure LineSegment where
  x1 : ℚ
  y1 : ℚ
  x2 : ℚ
  y2 : ℚ
  deriving DecidableEq

/-- The values `LaneDetector._add_overlay` computes before drawing: the lane
flag, the lane-text color, the lane status text and the speed-text color.
Colors are BGR triples. -/
structure LaneClassification where
  in_right_lane : Bool
  color : ℕ × ℕ × ℕ
  lane_status : String
  speed_color : ℕ × ℕ × ℕ
  deriving DecidableEq

/-- Core logic of `LaneDetector._add_overlay` (`src/enhanced_lane_detector.py`).
`lines` is `None` (no detection) or the list of segments.  Python divides
`right_lane_lines` by `len(lines)` guarded only by `lines is not None`, so a
(never produced by `cv2.HoughLinesP`) empty list raises `ZeroDivisionError`,
modelled as `none`. -/
def add_overlay (speed_data : SpeedAnalysis) (lines : Option (List LineSegment))
    (width : ℚ) : Option LaneClassification :=
  let classified : Option (Bool × (ℕ × ℕ × ℕ)) :=
    match lines with
    | none => some (false, (0, 0, 255))
    | some ls =>
      if ls.length = 0 then none
      else
        let line_positions := ls.map fun l => (l.x1 + l.x2) / 2
        let right_lane_lines := (line_positions.filter fun x => x > width * (6/10)).length
        let in_right_lane := decide ((right_lane_lines : ℚ) / (ls.length : ℚ) > 7/10)
        some (in_right_lane, if in_right_lane then (0, 255, 0) else (0, 0, 255))
  classified.map fun rc =>
    { in_right_lane := rc.1
      color := rc.2
      lane_status := if rc.1 then "IN RIGHT LANE" else "NOT IN RIGHT LANE"
      speed_color :=
        if speed_data.status = "WARNING" then (0, 255, 255)
        else if speed_data.status = "DANGER" then (0, 0, 255)
        else (0, 255, 0) }

/-! Helper lemmas about the speed processor. -/

lemma add_speed_reading_fst (p : SpeedProcessor) (i : SpeedInput) :
    (add_speed_reading p i).1 =
      { speed_limit := p.speed_limit
        speed_history :=
          if (p.speed_history ++ [(asNumber i).getD p.speed_limit]).length > 5 then
            (p.speed_history ++ [(asNumber i).getD p.speed_limit]).tail
          else p.speed_history ++ [(asNumber i).getD p.speed_limit] } := rfl

lemma add_speed_reading_history_getLast? (p : SpeedProcessor) (i : SpeedInput) :
    (add_speed_reading p i).1.speed_history.getLast? =
      some ((asNumber i).getD p.speed_limit) := by
  rw [congrArg SpeedProcessor.speed_history (add_speed_reading_fst p i)]
  split
  case isTrue h =>
    cases hp : p.speed_history with
    | nil => rw [hp] at h; simp at h
    | cons y t => simp [List.cons_append, List.tail_cons, List.getLast?_concat]
  case isFalse h => exact List.getLast?_concat _

lemma add_speed_reading_spec (p : SpeedProcessor) (i : SpeedInput) :
    ∃ a : SpeedAnalysis, (add_speed_reading p i).2 = some a ∧
      a.current = (asNumber i).getD p.speed_limit ∧
      a.status = (if a.current > p.speed_limit * (13/10) then "DANGER"
        else if a.current > p.speed_limit then "WARNING" else "NORMAL") ∧
      a.factor = min 1 (max 0 ((a.current - p.speed_limit) / 20)) := by
  have key : (add_speed_reading p i).2 = some
      { current := (asNumber i).getD p.speed_limit
        average := (add_speed_reading p i).1.speed_history.sum /
          ((add_speed_reading p i).1.speed_history.length : ℚ)
        status := if (asNumber i).getD p.speed_limit > p.speed_limit * (13/10) then "DANGER"
          else if (asNumber i).getD p.speed_limit > p.speed_limit then "WARNING" else "NORMAL"
        factor := min 1 (max 0 (((asNumber i).getD p.speed_limit - p.speed_limit) / 20)) } := by
    show analyze (add_speed_reading p i).1 = _
    unfold analyze
    rw [add_speed_reading_history_getLast? p i]
    rfl
  exact ⟨_, key, rfl, rfl, rfl⟩

/-- C1 (counterexample to the claim as stated): with the configured speed
limit -100, feeding the reading -100 (exactly the limit) yields status
DANGER, not NORMAL: the code compares current > speed_limit * 1.3 and
-100 > -130, so a reading equal to a negative limit is classified DANGER.
This refutes the part of C1 asserting that addReading(speedLimit) always
yields status NORMAL. -/
theorem claim_C1_counterexample :
    (add_speed_reading ⟨-100, []⟩ (SpeedInput.num (-100))).2.map SpeedAnalysis.status =
      some "DANGER" := by
  with_unfolding_all decide

/-- C1 (amended): for every call to addReading the returned status is DANGER
if and only if the current reading is strictly greater than speedLimit * 1.3;
otherwise it is WARNING if and only if the current reading is strictly
greater than speedLimit; otherwise it is NORMAL.  In particular, whenever
the configured speed limit is nonnegative, addReading(speedLimit) yields
status NORMAL (the comparisons are strict, so a reading exactly at the limit
is NORMAL, not WARNING). -/
theorem claim_C1_status_thresholds (p p' : SpeedProcessor) (i : SpeedInput)
    (a : SpeedAnalysis) (h : add_speed_reading p i = (p', some a)) :
    (a.status = "DANGER" ↔ a.current > p.speed_limit * (13/10)) ∧
    (¬ a.current > p.speed_limit * (13/10) →
      (a.status = "WARNING" ↔ a.current > p.speed_limit)) ∧
    (¬ a.current > p.speed_limit * (13/10) → ¬ a.current > p.speed_limit →
      a.status = "NORMAL") ∧
    (∀ q : SpeedProcessor, 0 ≤ q.speed_limit →
      ∃ b, (add_speed_reading q (SpeedInput.num q.speed_limit)).2 = some b ∧
        b.status = "NORMAL") := by
  obtain ⟨b, hb, hcur, hstat, hfac⟩ := add_speed_reading_spec p i
  have hsnd : (add_speed_reading p i).2 = some a := by rw [h]
  have hab : a = b := by
    rw [hsnd] at hb
    exact Option.some.inj hb
  subst hab
  refine ⟨?_, ?_, ?_, ?_⟩
  · rw [hstat]
    split_ifs <;> simp_all
  · intro h1
    rw [hstat, if_neg h1]
    split_ifs <;> simp_all
  · intro h1 h2
    rw [hstat, if_neg h1, if_neg h2]
  · intro q hq
    obtain ⟨c, hc, hcur', hstat', _⟩ := add_speed_reading_spec q (SpeedInput.num q.speed_limit)
    have hcc : c.current = q.speed_limit := hcur'
    refine ⟨c, hc, ?_⟩
    have h13 : ¬ c.current > q.speed_limit * (13/10) := by
      rw [hcc]
      nlinarith
    have hlim : ¬ c.current > q.speed_limit := by
      rw [hcc]
      exact lt_irrefl _
    rw [hstat', if_neg h13, if_neg hlim]

/-- C1 witness: applying the amended theorem at a concrete call, and its
final conjunct at the nonnegative limit 60, shows a reading exactly at the
limit comes back NORMAL. -/
theorem claim_C1_status_thresholds_witness :
    ∃ b, (add_speed_reading ⟨60, []⟩ (SpeedInput.num 60)).2 = some b ∧
      b.status = "NORMAL" := by
  have h := claim_C1_status_thresholds ⟨60, []⟩ ⟨60, [40]⟩ (SpeedInput.num 40)
      ⟨40, 40, "NORMAL", 0⟩ (by with_unfolding_all decide)
  exact h.2.2.2 ⟨60, []⟩ (by with_unfolding_all decide)

/-- C2 (counterexample to the claim as stated): with speedLimit 60 the code
classifies 80 and 90 as DANGER (both exceed 60 * 1.3 = 78), so the claimed
status sequence NORMAL, NORMAL, NORMAL, WARNING, WARNING, WARNING, DANGER
is not what the code produces. -/
theorem claim_C2_counterexample :
    ¬ (processAll ⟨60, []⟩ ([40, 50, 60, 70, 80, 90, 100].map SpeedInput.num)).map
        (Option.map SpeedAnalysis.status) =
      [some "NORMAL", some "NORMAL", some "NORMAL", some "WARNING", some "WARNING",
       some "WARNING", some "DANGER"] := by
  with_unfolding_all decide

/-- C2 (amended): feeding 40, 50, 60, 70, 80, 90, 100 one per call with
speedLimit 60 produces statuses NORMAL, NORMAL, NORMAL, WARNING, DANGER,
DANGER, DANGER (80, 90 and 100 all exceed 78 = 60 * 1.3) and factors
0, 0, 0, 0.5, 1.0, 1.0, 1.0. -/
theorem claim_C2_scenario :
    (processAll ⟨60, []⟩ ([40, 50, 60, 70, 80, 90, 100].map SpeedInput.num)).map
      (Option.map fun a => (a.status, a.factor)) =
    [some ("NORMAL", 0), some ("NORMAL", 0), some ("NORMAL", 0), some ("WARNING", 1/2),
     some ("DANGER", 1), some ("DANGER", 1), some ("DANGER", 1)] := by
  with_unfolding_all decide

/-- C3: every analysis returned by addReading has
factor = clamp((current - speedLimit) / 20, 0, 1): the factor is the stated
clamp expression, lies in the interval from 0 to 1, is 0 whenever the
current reading is at or below the limit, is 1 at limit + 20 or above, and
is monotonically non-decreasing in current - speedLimit across any two
calls. -/
theorem claim_C3_factor_clamp (p p' : SpeedProcessor) (i : SpeedInput)
    (a : SpeedAnalysis) (h : add_speed_reading p i = (p', some a)) :
    a.factor = min 1 (max 0 ((a.current - p.speed_limit) / 20)) ∧
    0 ≤ a.factor ∧ a.factor ≤ 1 ∧
    (a.current ≤ p.speed_limit → a.factor = 0) ∧
    (p.speed_limit + 20 ≤ a.current → a.factor = 1) ∧
    (∀ (q q' : SpeedProcessor) (j : SpeedInput) (b : SpeedAnalysis),
      add_speed_reading q j = (q', some b) →
      b.current - q.speed_limit ≤ a.current - p.speed_limit →
      b.factor ≤ a.factor) := by
  obtain ⟨c, hc, hcur, hstat, hfac⟩ := add_speed_reading_spec p i
  have hsnd : (add_speed_reading p i).2 = some a := by rw [h]
  have hac : a = c := by
    rw [hsnd] at hc
    exact Option.some.inj hc
  subst hac
  refine ⟨hfac, ?_, ?_, ?_, ?_, ?_⟩
  · rw [hfac]
    exact le_min (by norm_num) (le_max_left 0 _)
  · rw [hfac]
    exact min_le_left 1 _
  · intro hle
    rw [hfac]
    have hx : (a.current - p.speed_limit) / 20 ≤ 0 :=
      div_nonpos_of_nonpos_of_nonneg (by linarith) (by norm_num)
    rw [max_eq_left hx]
    norm_num
  · intro hge
    rw [hfac]
    have hx : (1:ℚ) ≤ (a.current - p.speed_limit) / 20 := by
      rw [le_div_iff₀ (by norm_num : (0:ℚ) < 20)]
      linarith
    rw [max_eq_right (by linarith), min_eq_left hx]
  · intro q q' j b hb hle
    obtain ⟨d, hd, hcur', _, hfac'⟩ := add_speed_reading_spec q j
    have hbd : b = d := by
      have hsnd' : (add_speed_reading q j).2 = some b := by rw [hb]
      rw [hsnd'] at hd
      exact Option.some.inj hd
    subst hbd
    rw [hfac, hfac']
    refine min_le_min le_rfl (max_le_max le_rfl ?_)
    exact (div_le_div_iff_of_pos_right (by norm_num : (0:ℚ) < 20)).mpr hle

/-- C3 witness: the monotonicity conjunct applied to the concrete calls
addReading(80) and addReading(70) with speedLimit 60, after checking both
concrete analyses, shows factor 0.5 is at most factor 1. -/
theorem claim_C3_factor_clamp_witness :
    SpeedAnalysis.factor ⟨70, 70, "WARNING", 1/2⟩ ≤
      SpeedAnalysis.factor ⟨80, 80, "DANGER", 1⟩ := by
  have h := claim_C3_factor_clamp ⟨60, []⟩ ⟨60, [80]⟩ (SpeedInput.num 80)
      ⟨80, 80, "DANGER", 1⟩ (by with_unfolding_all decide)
  exact h.2.2.2.2.2 ⟨60, []⟩ ⟨60, [70]⟩ (SpeedInput.num 70) ⟨70, 70, "WARNING", 1/2⟩
    (by with_unfolding_all decide) (by with_unfolding_all decide)

/-- C6: a non-numeric (text) reading is silently replaced by the configured
speed limit: from any prior state, addReading on a text value returns
exactly the same updated state and the same analysis as addReading on the
speed limit itself. -/
theorem claim_C6_nonnumeric_fallback (p : SpeedProcessor) (s : String) :
    add_speed_reading p (SpeedInput.str s) =
      add_speed_reading p (SpeedInput.num p.speed_limit) := rfl

/-- C10: Booleans pass the isinstance check (bool is a subclass of int in
Python), so addReading(True) behaves as addReading(1) and addReading(False)
as addReading(0): the effective readings 1 and 0 are appended to the window
rather than the configured limit, and with speedLimit 60 the resulting
analyses differ from that of addReading(60). -/
theorem claim_C10_boolean_readings :
    (∀ (p : SpeedProcessor) (b : Bool),
      add_speed_reading p (SpeedInput.boolean b) =
        add_speed_reading p (SpeedInput.num (if b then 1 else 0))) ∧
    (∀ p : SpeedProcessor,
      (add_speed_reading p (SpeedInput.boolean true)).1.speed_history.getLast? = some 1 ∧
      (add_speed_reading p (SpeedInput.boolean false)).1.speed_history.getLast? = some 0) ∧
    (add_speed_reading ⟨60, []⟩ (SpeedInput.boolean true)).2 ≠
      (add_speed_reading ⟨60, []⟩ (SpeedInput.num 60)).2 ∧
    (add_speed_reading ⟨60, []⟩ (SpeedInput.boolean false)).2 ≠
      (add_speed_reading ⟨60, []⟩ (SpeedInput.num 60)).2 := by
  refine ⟨fun p b => rfl, fun p => ⟨?_, ?_⟩,
    by with_unfolding_all decide, by with_unfolding_all decide⟩
  · exact add_speed_reading_history_getLast? p (SpeedInput.boolean true)
  · exact add_speed_reading_history_getLast? p (SpeedInput.boolean false)

lemma runProcessor_history (inputs : List SpeedInput) (p : SpeedProcessor)
    (hlen : p.speed_history.length ≤ 5) :
    (runProcessor p inputs).speed_history.length ≤ 5 ∧
    (runProcessor p inputs).speed_history =
      (p.speed_history ++ inputs.map fun i => (asNumber i).getD p.speed_limit).drop
        (p.speed_history.length + inputs.length - 5) := by
  induction inputs generalizing p with
  | nil =>
    refine ⟨hlen, ?_⟩
    simp [runProcessor, Nat.sub_eq_zero_of_le hlen]
  | cons i is ih =>
    have hl : (add_speed_reading p i).1.speed_limit = p.speed_limit := rfl
    have hrun : runProcessor p (i :: is) = runProcessor (add_speed_reading p i).1 is := rfl
    by_cases hc : (p.speed_history ++ [(asNumber i).getD p.speed_limit]).length > 5
    · have h5 : p.speed_history.length = 5 := by
        simp at hc
        omega
      obtain ⟨y, t, hyt⟩ : ∃ y t, p.speed_history = y :: t := by
        cases hp : p.speed_history with
        | nil => rw [hp] at h5; simp at h5
        | cons y t => exact ⟨y, t, rfl⟩
      have ht4 : t.length = 4 := by
        rw [hyt] at h5
        simpa using h5
      have hhist : (add_speed_reading p i).1.speed_history =
          t ++ [(asNumber i).getD p.speed_limit] := by
        rw [congrArg SpeedProcessor.speed_history (add_speed_reading_fst p i), if_pos hc, hyt]
        simp
      have hlen1 : (add_speed_reading p i).1.speed_history.length ≤ 5 := by
        rw [hhist]
        simp [ht4]
      obtain ⟨ihlen, ihhist⟩ := ih (add_speed_reading p i).1 hlen1
      rw [hl] at ihhist
      refine ⟨by rw [hrun]; exact ihlen, ?_⟩
      rw [hrun, ihhist, hhist, hyt]
      have hidx1 : (t ++ [(asNumber i).getD p.speed_limit]).length + is.length - 5 =
          is.length := by
        simp only [List.length_append, List.length_cons, List.length_nil, ht4]
        omega
      have hidx2 : (y :: t).length + (i :: is).length - 5 = is.length + 1 := by
        simp only [List.length_cons, ht4]
        omega
      rw [hidx1, hidx2, List.map_cons, List.cons_append, List.drop_succ_cons,
        List.append_assoc, List.singleton_append]
    · have hhist : (add_speed_reading p i).1.speed_history =
          p.speed_history ++ [(asNumber i).getD p.speed_limit] := by
        rw [congrArg SpeedProcessor.speed_history (add_speed_reading_fst p i), if_neg hc]
      have hlen1 : (add_speed_reading p i).1.speed_history.length ≤ 5 := by
        rw [hhist]
        simp at hc ⊢
        omega
      obtain ⟨ihlen, ihhist⟩ := ih (add_speed_reading p i).1 hlen1
      rw [hl] at ihhist
      refine ⟨by rw [hrun]; exact ihlen, ?_⟩
      rw [hrun, ihhist, hhist]
      rw [List.append_assoc, List.singleton_append]
      simp only [List.map_cons, List.length_append, List.length_cons, List.length_nil]
      congr 1
      omega

/-- C4: starting from a fresh SpeedProcessor, after any sequence of
addReading calls the window length never exceeds 5, and after 5 or more
insertions the window equals exactly the 5 most recent effective readings
in insertion order (FIFO with capacity 5, oldest evicted first). -/
theorem claim_C4_window_invariant (limit : ℚ) (inputs : List SpeedInput) :
    (runProcessor ⟨limit, []⟩ inputs).speed_history.length ≤ 5 ∧
    (5 ≤ inputs.length →
      (runProcessor ⟨limit, []⟩ inputs).speed_history =
        (inputs.map fun i => (asNumber i).getD limit).drop (inputs.length - 5)) := by
  obtain ⟨h1, h2⟩ := runProcessor_history inputs ⟨limit, []⟩ (by simp)
  refine ⟨h1, fun _ => ?_⟩
  simpa using h2

/-- C4 witness: six readings with limit 60 leave exactly the last five in
the window, in order. -/
theorem claim_C4_window_invariant_witness :
    (runProcessor ⟨60, []⟩ ([40, 50, 60, 70, 80, 90].map SpeedInput.num)).speed_history =
      [50, 60, 70, 80, 90] := by
  have h := (claim_C4_window_invariant 60 ([40, 50, 60, 70, 80, 90].map SpeedInput.num)).2
    (by with_unfolding_all decide)
  rw [h]
  with_unfolding_all decide

/-- C5: on its domain of nonnegative factors, get_speed_settings computes
exactly canny_min = 50 + floor(30 * factor),
canny_max = 150 + floor(50 * factor),
hough_thresh = max(20, 50 - floor(25 * factor)) and
roi_start = 0.5 - 0.15 * factor; at factor 1 it yields the record
(80, 200, 25, 0.35) and at factor 0 the roi_start is 0.5. -/
theorem claim_C5_parameter_mapping (f : ℚ) (h0 : 0 ≤ f) :
    (get_speed_settings f).canny_min = 50 + ⌊30 * f⌋ ∧
    (get_speed_settings f).canny_max = 150 + ⌊50 * f⌋ ∧
    (get_speed_settings f).hough_thresh = max 20 (50 - ⌊25 * f⌋) ∧
    (get_speed_settings f).roi_start = 1/2 - (15/100) * f ∧
    get_speed_settings 1 = ⟨80, 200, 25, 35/100⟩ ∧
    (get_speed_settings 0).roi_start = 1/2 := by
  have key : ∀ q : ℚ, 0 ≤ q → pyInt q = ⌊q⌋ := by
    intro q hq
    unfold pyInt
    rw [if_neg (not_lt.mpr hq)]
  refine ⟨?_, ?_, ?_, rfl, by with_unfolding_all decide, by with_unfolding_all decide⟩
  · show 50 + pyInt (30 * f) = 50 + ⌊30 * f⌋
    rw [key _ (mul_nonneg (by norm_num) h0)]
  · show 150 + pyInt (50 * f) = 150 + ⌊50 * f⌋
    rw [key _ (mul_nonneg (by norm_num) h0)]
  · show max 20 (50 - pyInt (25 * f)) = max 20 (50 - ⌊25 * f⌋)
    rw [key _ (mul_nonneg (by norm_num) h0)]

/-- C5 witness: at factor one half the low edge threshold is
50 + floor(15) = 65. -/
theorem claim_C5_parameter_mapping_witness :
    (get_speed_settings (1/2)).canny_min = 50 + ⌊(30:ℚ) * (1/2)⌋ :=
  (claim_C5_parameter_mapping (1/2) (by with_unfolding_all decide)).1

/-- C7: for a non-empty detection, in_right_lane is true exactly when the
fraction of segments whose midpoint (x1+x2)/2 lies strictly right of
frameWidth * 0.6 is strictly greater than 0.7; in particular 8 right-side
midpoints out of 10 classify as in the right lane while exactly 7 out of
10 do not. -/
theorem claim_C7_lane_majority (sd : SpeedAnalysis) (ls : List LineSegment) (w : ℚ)
    (hne : ls ≠ []) :
    (∃ r, add_overlay sd (some ls) w = some r ∧
      (r.in_right_lane = true ↔
        ((((ls.map fun l => (l.x1 + l.x2) / 2).filter fun x => x > w * (6/10)).length : ℚ) /
          (ls.length : ℚ) > 7/10))) ∧
    (add_overlay ⟨60, 60, "NORMAL", 0⟩
        (some (List.replicate 8 ⟨70, 0, 70, 0⟩ ++ List.replicate 2 ⟨10, 0, 10, 0⟩)) 100).map
      LaneClassification.in_right_lane = some true ∧
    (add_overlay ⟨60, 60, "NORMAL", 0⟩
        (some (List.replicate 7 ⟨70, 0, 70, 0⟩ ++ List.replicate 3 ⟨10, 0, 10, 0⟩)) 100).map
      LaneClassification.in_right_lane = some false := by
  refine ⟨?_, by with_unfolding_all decide, by with_unfolding_all decide⟩
  cases ls with
  | nil => exact absurd rfl hne
  | cons a t =>
    refine ⟨_, rfl, ?_⟩
    exact decide_eq_true_iff

/-- C7 witness: one segment with midpoint 70 against width 100 is a
100 percent right-side majority, so the classification succeeds. -/
theorem claim_C7_lane_majority_witness :
    (add_overlay ⟨60, 60, "NORMAL", 0⟩ (some [⟨70, 0, 70, 0⟩]) 100).isSome = true := by
  obtain ⟨⟨r, hr, _⟩, _, _⟩ := claim_C7_lane_majority ⟨60, 60, "NORMAL", 0⟩
    [⟨70, 0, 70, 0⟩] 100 (by simp)
  rw [hr]
  rfl

/-- C8: with no detected segments (Python's None), the classification never
aborts and returns in_right_lane false with the default red color and the
label NOT IN RIGHT LANE, for every frame width and speed analysis. -/
theorem claim_C8_empty_segments (sd : SpeedAnalysis) (w : ℚ) :
    ∃ r, add_overlay sd none w = some r ∧ r.in_right_lane = false ∧
      r.color = (0, 0, 255) ∧ r.lane_status = "NOT IN RIGHT LANE" :=
  ⟨_, rfl, rfl, rfl, rfl⟩

/-- C9: the division by len(lines) is guarded only by the None test, so the
classification is total exactly when the segment argument is None or a
non-empty sequence; an empty (non-None) sequence hits the zero divisor and
raises. -/
theorem claim_C9_division_guard (sd : SpeedAnalysis) (lines : Option (List LineSegment))
    (w : ℚ) :
    (add_overlay sd lines w).isSome = true ↔ lines = none ∨ lines ≠ some [] := by
  cases lines with
  | none =>
    have h : (add_overlay sd none w).isSome = true := rfl
    simp [h]
  | some ls =>
    cases ls with
    | nil =>
      have h : add_overlay sd (some ([] : List LineSegment)) w = none := rfl
      rw [h]
      simp
    | cons a t =>
      have h : (add_overlay sd (some (a :: t)) w).isSome = true := rfl
      simp [h]

end VehicleLane
